import Mathlib

/-!
Shallow embedding of the expense-extraction pipeline of the exapp repository
(gmail-integration.py, task-scheduler.py, advanced-ai-backend.py,
websocket-manager.py), together with theorems settling the frozen claims.

Conventions:
* Python text is modelled as `List Char`; machine floats that only ever hold
  decimal dollar amounts are modelled exactly as `ℚ`.
* Python exceptions are modelled with `Except PyErr`.
* Calls into third-party libraries (spaCy, transformers, BeautifulSoup,
  dateutil) are modelled as explicit function parameters of the pipeline;
  everything written in the repository itself is translated directly.
-/

namespace ExApp

/-- Python exceptions that the embedded code can raise. -/
inductive PyErr where
  /-- A free variable was referenced that is not defined in any enclosing
  scope (Python `NameError`). -/
  | nameError (ident : String)
  /-- `binascii.Error` raised by `base64.urlsafe_b64decode` (incorrect padding /
  invalid length). -/
  | b64Error
  /-- `UnicodeDecodeError` raised by `bytes.decode('utf-8')`. -/
  | unicodeError
  deriving Repr, DecidableEq

/-- A calendar date as produced by `datetime.date`. -/
structure Date where
  year : Nat
  month : Nat
  day : Nat
  deriving Repr, DecidableEq

/-! ## Python string helpers -/

/-- The characters Python `str.split` and `\s` treat as whitespace. -/
def isSpaceC (c : Char) : Bool :=
  c = ' ' || c = '\t' || c = '\n' || c = '\x0d' || c = '\x0b' || c = '\x0c'

/-- Regex `\d` (ASCII digits, the only ones occurring in these inputs). -/
def isDigitC (c : Char) : Bool := c.isDigit

/-- Regex `\w`: alphanumeric or underscore. -/
def isWordC (c : Char) : Bool := c.isAlphanum || c = '_'

/-- Character class `[A-Za-z0-9\s\.]` used by the merchant patterns. -/
def isMerchC (c : Char) : Bool := c.isAlphanum || isSpaceC c || c = '.'

/-- Character class `[\w\s&]` used by the ML subject patterns. -/
def isOrgC (c : Char) : Bool := isWordC c || isSpaceC c || c = '&'

/-- Character class `[A-Za-z0-9\-]` used by the description patterns. -/
def isDescC (c : Char) : Bool := c.isAlphanum || c = '-'

/-- Regex `.`: any character except a newline. -/
def isDotC (c : Char) : Bool := c ≠ '\n'

/-- Lower-case a Python string (`str.lower`). -/
def toLowerL (s : List Char) : List Char := s.map Char.toLower

/-- Python `str.strip()`: remove leading and trailing whitespace. -/
def pyStrip (s : List Char) : List Char :=
  ((s.dropWhile isSpaceC).reverse.dropWhile isSpaceC).reverse

/-- Helper for `pySplit`, accumulating the current word in reverse. -/
def pySplitAux : List Char → List Char → List (List Char)
  | [], acc => if acc = [] then [] else [acc.reverse]
  | c :: cs, acc =>
    if isSpaceC c then
      if acc = [] then pySplitAux cs [] else acc.reverse :: pySplitAux cs []
    else pySplitAux cs (c :: acc)

/-- Python `str.split()` with no separator: split on whitespace runs. -/
def pySplit (s : List Char) : List (List Char) := pySplitAux s []

/-- Join word lists with single spaces (`' '.join(...)`). -/
def joinSpace : List (List Char) → List Char
  | [] => []
  | [w] => w
  | w :: ws => w ++ ' ' :: joinSpace ws

/-- The normalization `' '.join(text.split())` in `extract_expense_details`. -/
def normWs (s : List Char) : List Char := joinSpace (pySplit s)

/-- Python substring test `needle in hay`. -/
def containsSub (hay needle : List Char) : Bool :=
  match hay with
  | [] => needle.isPrefixOf hay
  | _ :: rest => needle.isPrefixOf hay || containsSub rest needle

/-- Numeric value of a digit string. -/
def digitsToNat (ds : List Char) : Nat :=
  ds.foldl (fun n c => n * 10 + (c.toNat - 48)) 0

/-- Python `float(...)` applied to the decimal strings captured by the amount
patterns (digits with an optional single fractional part, commas removed by
the caller); these values are exactly representable, so ℚ models them.  The
value `intpart.fracpart` is built with `mkRat` so that it computes by kernel
reduction. -/
def pyFloat (s : List Char) : ℚ :=
  match s.splitOn '.' with
  | [i] => (digitsToNat i : ℚ)
  | [i, f] => mkRat (digitsToNat i * 10 ^ f.length + digitsToNat f) (10 ^ f.length)
  | _ => 0

/-- Structural decidable equality for `Except`. -/
instance {ε α : Type} [DecidableEq ε] [DecidableEq α] : DecidableEq (Except ε α) :=
  fun a b =>
    match a, b with
    | .ok x, .ok y =>
      if h : x = y then isTrue (by rw [h]) else isFalse (by intro hc; cases hc; exact h rfl)
    | .error x, .error y =>
      if h : x = y then isTrue (by rw [h]) else isFalse (by intro hc; cases hc; exact h rfl)
    | .ok _, .error _ => isFalse (by intro hc; cases hc)
    | .error _, .ok _ => isFalse (by intro hc; cases hc)

/-! ## A small backtracking regex engine

The repository's extraction heuristics are `re.search` calls over a fixed
table of patterns.  We embed exactly the constructs those patterns use; each
pattern below is transcribed node-by-node from the source string.  A match
attempt returns the list of `(remaining input, capture of the single group)`
pairs in backtracking preference order, so the head of the list is the match
Python's engine commits to. -/

inductive Re where
  /-- A single character matching a class predicate. -/
  | cls (f : Char → Bool)
  /-- A literal, matched case-insensitively (all the repository's searches that
  contain letters pass `re.IGNORECASE`; the one that does not has no letters). -/
  | lit (s : List Char)
  | seq (a b : Re)
  /-- Alternation, left preferred. -/
  | alt (a b : Re)
  /-- Greedy bounded repetition `{lo,hi}`. -/
  | rep (r : Re) (lo hi : Nat)
  /-- Greedy unbounded `*` over a subexpression (with Python's empty-match
  protection: an iteration must consume input). -/
  | star (r : Re)
  /-- Greedy `f*` over a character class. -/
  | many (f : Char → Bool)
  /-- Greedy `f+` over a character class. -/
  | many1 (f : Char → Bool)
  /-- Lazy `f+?` over a character class (shortest first). -/
  | manyLazy1 (f : Char → Bool)
  /-- The capturing group. -/
  | grp (r : Re)
  /-- The `$` anchor (no MULTILINE flag is ever passed, and the searched text
  is whitespace-normalized, hence newline-free). -/
  | eos
  deriving Inhabited

/-- Match attempts: remaining input and group capture, preference-ordered. -/
abbrev Ways := List (List Char × Option (List Char))

/-- Keep the first group capture found (each pattern has exactly one group). -/
def orCap : Option (List Char) → Option (List Char) → Option (List Char)
  | some x, _ => some x
  | none, y => y

/-- Case-insensitive literal matching. -/
def matchLit : List Char → List Char → Ways
  | [], cs => [(cs, none)]
  | _ :: _, [] => []
  | l :: ls, c :: cs => if c.toLower = l.toLower then matchLit ls cs else []

/-- Length of the maximal class run at the head of the input. -/
def countWhile (f : Char → Bool) : List Char → Nat
  | [] => 0
  | c :: cs => if f c then countWhile f cs + 1 else 0

/-- All match attempts of `r` at the head of `cs`, in backtracking order.
The fuel bounds the recursion depth; every recursive call decrements it, and
`star` iterations are forced to consume input, so `cs.length + 100` fuel is
ample for the fixed pattern table below. -/
def ways : Nat → Re → List Char → Ways
  | 0, _, _ => []
  | _ + 1, .cls f, cs =>
    match cs with
    | [] => []
    | c :: rest => if f c then [(rest, none)] else []
  | _ + 1, .lit s, cs => matchLit s cs
  | fuel + 1, .seq a b, cs =>
    (ways fuel a cs).flatMap fun w =>
      (ways fuel b w.1).map fun v => (v.1, orCap w.2 v.2)
  | fuel + 1, .alt a b, cs => ways fuel a cs ++ ways fuel b cs
  | fuel + 1, .rep r lo hi, cs =>
    match hi with
    | 0 => if lo = 0 then [(cs, none)] else []
    | h + 1 =>
      let withOne := (ways fuel r cs).flatMap fun w =>
        (ways fuel (.rep r (lo - 1) h) w.1).map fun v => (v.1, orCap w.2 v.2)
      if lo = 0 then withOne ++ [(cs, none)] else withOne
  | fuel + 1, .star r, cs =>
    ((ways fuel r cs).flatMap fun w =>
      if w.1.length < cs.length then
        (ways fuel (.star r) w.1).map fun v => (v.1, orCap w.2 v.2)
      else []) ++ [(cs, none)]
  | _ + 1, .many f, cs =>
    let n := countWhile f cs
    (List.range (n + 1)).reverse.map fun k => (cs.drop k, none)
  | _ + 1, .many1 f, cs =>
    let n := countWhile f cs
    (List.range n).reverse.map fun k => (cs.drop (k + 1), none)
  | _ + 1, .manyLazy1 f, cs =>
    let n := countWhile f cs
    (List.range n).map fun k => (cs.drop (k + 1), none)
  | fuel + 1, .grp r, cs =>
    (ways fuel r cs).map fun w => (w.1, some (cs.take (cs.length - w.1.length)))
  | _ + 1, .eos, cs => if cs = [] then [(cs, none)] else []

/-- The match attempt Python commits to at one start position. -/
def searchAt (r : Re) (cs : List Char) : Option (List Char) :=
  match ways (cs.length + 100) r cs with
  | [] => none
  | w :: _ => some (w.2.getD [])

/-- `re.search`: try successive start positions left to right and return the
group captured by the leftmost match. -/
def re_search (r : Re) : List Char → Option (List Char)
  | [] => searchAt r []
  | c :: rest =>
    match searchAt r (c :: rest) with
    | some g => some g
    | none => re_search r rest

/-- First pattern in priority order whose search succeeds, with its capture
(the shared `for pattern in patterns: ... break` idiom). -/
def firstSearch : List Re → List Char → Option (List Char)
  | [], _ => none
  | p :: ps, cs =>
    match re_search p cs with
    | some g => some g
    | none => firstSearch ps cs

/-! ## Pattern combinator helpers -/

/-- Concatenation of a pattern list. -/
def cat (rs : List Re) : Re := rs.foldr .seq (.lit [])

/-- Alternation of a pattern list, left-to-right preference. -/
def alts : List Re → Re
  | [] => .lit []
  | r :: rs => rs.foldl .alt r

/-- A case-insensitive literal from a string. -/
def L (s : String) : Re := .lit s.toList

/-- `(?:r)?` -/
def opt (r : Re) : Re := .rep r 0 1

/-- `\d{n}` -/
def digits (n : Nat) : Re := .rep (.cls isDigitC) n n

/-! ## Base64 and UTF-8 decoding

`base64.urlsafe_b64decode` translates `-`/`_` to `+`/`/` and calls
`b64decode`, which (with `validate=False`) discards characters outside the
alphabet and raises `binascii.Error` when the remaining length is not a
multiple of four.  The model below is faithful for inputs whose `=` signs
appear only as trailing padding, which covers everything the claims touch. -/

/-- Value of a base64 alphabet character (urlsafe variants included). -/
def b64Val (c : Char) : Option Nat :=
  if 'A' ≤ c ∧ c ≤ 'Z' then some (c.toNat - 65)
  else if 'a' ≤ c ∧ c ≤ 'z' then some (c.toNat - 97 + 26)
  else if '0' ≤ c ∧ c ≤ '9' then some (c.toNat - 48 + 52)
  else if c = '+' ∨ c = '-' then some 62
  else if c = '/' ∨ c = '_' then some 63
  else none

/-- Decode base64 data groups (padding already stripped) into bytes. -/
def b64Bytes : List Nat → List Nat
  | a :: b :: c :: d :: rest =>
    (a * 4 + b / 16) :: ((b % 16) * 16 + c / 4) :: ((c % 4) * 64 + d) :: b64Bytes rest
  | [a, b, c] => [a * 4 + b / 16, (b % 16) * 16 + c / 4]
  | [a, b] => [a * 4 + b / 16]
  | [_] => []
  | [] => []

/-- Model of `base64.urlsafe_b64decode`. -/
def b64decode (s : List Char) : Except PyErr (List Nat) :=
  let kept := s.filter fun c => (b64Val c).isSome || c = '='
  if kept.length % 4 ≠ 0 then .error .b64Error
  else
    let data := kept.filter fun c => c ≠ '='
    if data.length % 4 = 1 then .error .b64Error
    else .ok (b64Bytes (data.filterMap b64Val))

/-- Strict UTF-8 decoding of a byte string (`bytes.decode('utf-8')`); any
byte sequence outside the encoding raises `UnicodeDecodeError`.  Overlong /
surrogate fine print is irrelevant to the inputs considered here. -/
def utf8decodeAux : Nat → List Nat → Except PyErr (List Char)
  | 0, _ => .error .unicodeError
  | _, [] => .ok []
  | fuel + 1, b :: rest =>
    if b < 0x80 then
      (utf8decodeAux fuel rest).map fun cs => Char.ofNat b :: cs
    else if 0xC2 ≤ b ∧ b ≤ 0xDF then
      match rest with
      | b1 :: rest1 =>
        if 0x80 ≤ b1 ∧ b1 ≤ 0xBF then
          (utf8decodeAux fuel rest1).map fun cs =>
            Char.ofNat ((b - 0xC0) * 64 + (b1 - 0x80)) :: cs
        else .error .unicodeError
      | [] => .error .unicodeError
    else if 0xE0 ≤ b ∧ b ≤ 0xEF then
      match rest with
      | b1 :: b2 :: rest2 =>
        if (0x80 ≤ b1 ∧ b1 ≤ 0xBF) ∧ (0x80 ≤ b2 ∧ b2 ≤ 0xBF) then
          (utf8decodeAux fuel rest2).map fun cs =>
            Char.ofNat ((b - 0xE0) * 4096 + (b1 - 0x80) * 64 + (b2 - 0x80)) :: cs
        else .error .unicodeError
      | _ => .error .unicodeError
    else if 0xF0 ≤ b ∧ b ≤ 0xF4 then
      match rest with
      | b1 :: b2 :: b3 :: rest3 =>
        if (0x80 ≤ b1 ∧ b1 ≤ 0xBF) ∧ (0x80 ≤ b2 ∧ b2 ≤ 0xBF) ∧ (0x80 ≤ b3 ∧ b3 ≤ 0xBF) then
          (utf8decodeAux fuel rest3).map fun cs =>
            Char.ofNat ((b - 0xF0) * 262144 + (b1 - 0x80) * 4096 + (b2 - 0x80) * 64 + (b3 - 0x80)) :: cs
        else .error .unicodeError
      | _ => .error .unicodeError
    else .error .unicodeError

/-- `bytes.decode('utf-8')`. -/
def utf8decode (bs : List Nat) : Except PyErr (List Char) :=
  utf8decodeAux (bs.length + 1) bs

/-- `base64.urlsafe_b64decode(data).decode('utf-8')`. -/
def decodeText (data : List Char) : Except PyErr (List Char) := do
  let bs ← b64decode data
  utf8decode bs

/-! ## The regex pattern tables, transcribed from the source -/

namespace Gmail

/-- `(?:total|amount|charge|payment)` -/
def kwAmount : Re := alts [L "total", L "amount", L "charge", L "payment"]

/-- `(\d+(?:\.\d{2})?)` -/
def grpAmount : Re := .grp (cat [.many1 isDigitC, opt (cat [L ".", digits 2])])

/-- gmail-integration.py line 149:
`(?:total|amount|charge|payment)(?:\s+\w+){0,3}\s+\$\s*(\d+(?:\.\d{2})?)` -/
def amountPat1 : Re :=
  cat [kwAmount, .rep (cat [.many1 isSpaceC, .many1 isWordC]) 0 3,
       .many1 isSpaceC, L "$", .many isSpaceC, grpAmount]

/-- gmail-integration.py line 150:
`\$\s*(\d+(?:\.\d{2})?)\s+(?:total|amount|charge|payment)` -/
def amountPat2 : Re :=
  cat [L "$", .many isSpaceC, grpAmount, .many1 isSpaceC, kwAmount]

/-- gmail-integration.py line 151: `(?:USD|US\$)\s*(\d+(?:\.\d{2})?)` -/
def amountPat3 : Re :=
  cat [alts [L "USD", L "US$"], .many isSpaceC, grpAmount]

/-- gmail-integration.py line 152: `(\d+\.\d{2})\s+(?:USD|US\$|dollars)` -/
def amountPat4 : Re :=
  cat [.grp (cat [.many1 isDigitC, L ".", digits 2]), .many1 isSpaceC,
       alts [L "USD", L "US$", L "dollars"]]

/-- The ordered amount-pattern table (gmail-integration.py lines 148-153). -/
def amount_patterns : List Re := [amountPat1, amountPat2, amountPat3, amountPat4]

/-- The looser fallback pattern of line 163: `\$\s*(\d+(?:,\d{3})*(?:\.\d{2})?)`
(searched without IGNORECASE, which is irrelevant: it contains no letters). -/
def generalAmountPat : Re :=
  cat [L "$", .many isSpaceC,
       .grp (cat [.many1 isDigitC, .star (cat [L ",", digits 3]),
                  opt (cat [L ".", digits 2])])]

/-- Subject patterns of `extract_merchant_from_subject`
(gmail-integration.py lines 221-226), in priority order. -/
def subject_patterns : List Re :=
  [cat [alts [L "Your", L "New"], L " ", alts [L "order", L "purchase"], L " ",
        alts [L "from", L "with"], L " ", .grp (.many1 isMerchC)],
   cat [.grp (.many1 isMerchC), L " ",
        alts [L "order", L "receipt", L "invoice", L "confirmation"]],
   cat [alts [L "Receipt", L "Confirmation"], L " for ", .grp (.many1 isMerchC)],
   cat [L "Thanks for ", alts [L "ordering", L "shopping"], L " ",
        alts [L "from", L "with", L "at"], L " ", .grp (.many1 isMerchC)]]

/-- Body merchant patterns (gmail-integration.py lines 174-177). -/
def merchant_text_patterns : List Re :=
  [cat [alts [L "from", L "vendor", L "merchant", L "store", L "retailer"],
        L ":", .many1 isSpaceC, .grp (.many1 isMerchC)],
   cat [L "Thank", .many1 isSpaceC, L "you", .many1 isSpaceC, L "for",
        .many1 isSpaceC,
        alts [cat [L "your", .many1 isSpaceC, L "purchase"], L "ordering", L "shopping"],
        .many1 isSpaceC, alts [L "from", L "with", L "at"],
        .many1 isSpaceC, .grp (.many1 isMerchC)]]

/-- Description patterns (gmail-integration.py lines 200-204). -/
def description_patterns : List Re :=
  [cat [alts [L "order", L "confirmation"], .many1 isSpaceC,
        alts [L "number", L "#"], L ":", .many isSpaceC, .grp (.many1 isDescC)],
   cat [alts [L "invoice", L "receipt"], .many1 isSpaceC,
        alts [L "number", L "#"], L ":", .many isSpaceC, .grp (.many1 isDescC)],
   cat [alts [L "purchase", L "bought", L "ordered"], L ":", .many1 isSpaceC,
        .grp (.manyLazy1 isDotC), alts [L ".", .eos]]]

end Gmail

/-! ## Persistent entities (ORM rows touched by the pipeline) -/

/-- An `Expense` row as built by the pipelines.  The ML pipeline can store a
Python `None` merchant, hence the `Option`. -/
structure Expense where
  date : Date
  amount : ℚ
  merchant : Option (List Char)
  description : List Char
  user_id : Nat
  email_id : List Char
  category_id : Option Nat
  deriving Repr, DecidableEq

/-- A `Category` row. -/
structure Categ where
  id : Nat
  user_id : Nat
  name : List Char
  deriving Repr, DecidableEq

/-- The slice of database state the pipelines read and write. -/
structure DbState where
  users : List Nat
  categories : List Categ
  expenses : List Expense
  deriving Repr, DecidableEq

/-- One MIME part of a Gmail API payload; a missing `data` key and an empty
string behave identically (`part['body'].get('data', '')`), so both are `[]`. -/
structure MsgPart where
  mimeType : List Char
  data : List Char
  deriving Repr, DecidableEq

/-- A Gmail API message payload. -/
structure Payload where
  parts : Option (List MsgPart)
  data : List Char
  deriving Repr, DecidableEq

/-- A fetched Gmail message: headers plus payload. -/
structure GMsg where
  headers : List (List Char × List Char)
  payload : Payload
  deriving Repr, DecidableEq

/-- `next((h['value'] for h in headers if h['name'] == name), '')`. -/
def headerExact (hs : List (List Char × List Char)) (name : List Char) : List Char :=
  ((hs.find? fun h => h.1 = name).map Prod.snd).getD []

/-- Header lookup with `header['name'].lower() == name` (task scheduler). -/
def headerLower (hs : List (List Char × List Char)) (name : List Char) : List Char :=
  ((hs.find? fun h => toLowerL h.1 = name).map Prod.snd).getD []

namespace Gmail

/-- The part-scanning loop of `process_email_message` (gmail-integration.py
lines 87-96): a `text/plain` part takes its data and breaks immediately; a
`text/html` part overwrites the running data and the loop continues. -/
def body_data_scan : List MsgPart → List Char → List Char
  | [], acc => acc
  | p :: rest, acc =>
    if p.mimeType = ("text/plain").toList then p.data
    else if p.mimeType = ("text/html").toList then body_data_scan rest p.data
    else body_data_scan rest acc

/-- Body extraction inlined in `process_email_message` (lines 87-103). -/
def body_text (payload : Payload) : Except PyErr (List Char) :=
  match payload.parts with
  | some parts =>
    let data := body_data_scan parts []
    if data ≠ [] then decodeText data else .ok []
  | none =>
    if payload.data ≠ [] then decodeText payload.data else .ok []

/-- `extract_merchant_from_subject` (gmail-integration.py lines 218-233). -/
def extract_merchant_from_subject (subject : List Char) : Option (List Char) :=
  (firstSearch subject_patterns subject).map pyStrip

/-- The result dictionary of `extract_expense_details` when it returns one:
amount and merchant are then both present, description may be absent. -/
structure GCand where
  amount : ℚ
  merchant : List Char
  description : Option (List Char)
  deriving Repr, DecidableEq

/-- The amount-extraction block of `extract_expense_details`
(gmail-integration.py lines 147-165): the priority patterns are tried in
order and the first one that matches anywhere supplies the amount; the looser
`$`-only pattern is consulted only when none of them matched. -/
def extract_amount (text : List Char) : Option ℚ :=
  match firstSearch amount_patterns text with
  | some g => some (pyFloat (g.filter fun c => c ≠ ','))
  | none => (re_search generalAmountPat text).map fun g => pyFloat (g.filter fun c => c ≠ ',')

/-- `extract_expense_details` (gmail-integration.py lines 129-216).
`htmlToText` models `BeautifulSoup(...).get_text()` with script/style
stripping.  When neither the subject patterns nor the body patterns produce a
merchant, the source enters `for header in message['payload']['headers']`
(line 187) where `message` is a free name not defined in this function, so
Python raises `NameError` at that point. -/
def extract_expense_details (htmlToText : List Char → List Char)
    (text0 subject : List Char) : Except PyErr (Option GCand) :=
  let text1 :=
    if containsSub (toLowerL text0) ("<html").toList then htmlToText text0 else text0
  let text := normWs text1
  let amount : Option ℚ := extract_amount text
  let merchant : Option (List Char) :=
    match extract_merchant_from_subject subject with
    | some m => some m
    | none => (firstSearch merchant_text_patterns text).map pyStrip
  match merchant with
  | none => .error (.nameError "message")
  | some m =>
    let desc := (firstSearch description_patterns text).map pyStrip
    match amount with
    | some a => .ok (some ⟨a, m, desc⟩)
    | none => .ok none

/-- The merchant keyword table (gmail-integration.py lines 242-249), in the
source's insertion order, which Python dict iteration preserves. -/
def merchant_rules : List (List Char × List (List Char)) :=
  [(("grocery").toList,
    [("kroger").toList, ("safeway").toList, ("trader joe").toList,
     ("aldi").toList, ("whole foods").toList, ("wegmans").toList]),
   (("restaurant").toList,
    [("doordash").toList, ("ubereats").toList, ("grubhub").toList,
     ("mcdonalds").toList, ("chipotle").toList, ("starbucks").toList]),
   (("transportation").toList,
    [("uber").toList, ("lyft").toList, ("amtrak").toList,
     ("delta").toList, ("southwest").toList, ("united").toList]),
   (("shopping").toList,
    [("amazon").toList, ("walmart").toList, ("target").toList,
     ("ebay").toList, ("etsy").toList, ("best buy").toList]),
   (("entertainment").toList,
    [("netflix").toList, ("hulu").toList, ("spotify").toList,
     ("disney+").toList, ("hbo").toList, ("amc").toList]),
   (("utilities").toList,
    [("comcast").toList, ("verizon").toList, ("at&t").toList,
     ("pge").toList, ("water bill").toList, ("electric").toList])]

/-- Dictionary update with overwrite (`d[k] = v`). -/
def dictSet (d : List (List Char × Nat)) (k : List Char) (v : Nat) :
    List (List Char × Nat) :=
  if d.any fun p => p.1 = k then d.map fun p => if p.1 = k then (k, v) else p
  else d ++ [(k, v)]

/-- Dictionary lookup (`d.get(k)` / `k in d`). -/
def dictGet (d : List (List Char × Nat)) (k : List Char) : Option Nat :=
  (d.find? fun p => p.1 = k).map Prod.snd

/-- `{cat.name.lower(): cat.id for cat in categories}` over the user's rows. -/
def category_dict (cats : List Categ) (uid : Nat) : List (List Char × Nat) :=
  (cats.filter fun c => c.user_id = uid).foldl
    (fun d c => dictSet d (toLowerL c.name) c.id) []

/-- The merchant-rule loop (lines 253-257): iterations whose keyword list has
no hit, or whose category the user lacks, fall through to the next rule; the
first rule with both a hit and a user-held category returns its id. -/
def ruleHit (dict : List (List Char × Nat)) (merchantLower : List Char) :
    List (List Char × List (List Char)) → Option Nat
  | [] => none
  | (cname, kws) :: rest =>
    if (kws.any fun k => containsSub merchantLower k) && (dictGet dict cname).isSome
    then dictGet dict cname
    else ruleHit dict merchantLower rest

/-- Seasonal gift keywords (line 263). -/
def giftKeywords : List (List Char) :=
  [("gift").toList, ("christmas").toList, ("holiday").toList]

/-- Travel keywords (line 273). -/
def travelKeywords : List (List Char) :=
  [("flight").toList, ("hotel").toList, ("vacation").toList,
   ("travel").toList, ("booking").toList]

/-- The rule chain after the merchant table (gmail-integration.py lines
259-282): seasonal, then travel, then Uncategorized/Other, else nothing. -/
def categorize_after_merchant (dict : List (List Char × Nat))
    (descLower : List Char) (month : Nat) : Option Nat :=
  let seasonal : Option Nat :=
    if (month = 11 ∨ month = 12) ∧ giftKeywords.any (containsSub descLower) then
      match dictGet dict ("holiday").toList with
      | some c => some c
      | none => dictGet dict ("christmas").toList
    else none
  match seasonal with
  | some c => some c
  | none =>
    match (if travelKeywords.any (containsSub descLower) then
             dictGet dict ("travel").toList else none) with
    | some c => some c
    | none =>
      match dictGet dict ("uncategorized").toList with
      | some c => some c
      | none => dictGet dict ("other").toList

/-- `categorize_expense` (gmail-integration.py lines 235-282), returning the
category id stored into `expense.category_id` (`none` = left unset). -/
def categorize_expense (cats : List Categ) (uid : Nat) (merchant : List Char)
    (description : List Char) (month : Nat) : Option Nat :=
  let dict := category_dict cats uid
  match ruleHit dict (toLowerL merchant) merchant_rules with
  | some c => some c
  | none => categorize_after_merchant dict (toLowerL description) month

/-- Outcome of `process_email_message`, mirroring its return dictionaries;
`raised` models the celery task terminating with an uncaught exception. -/
inductive GResult where
  | errUserNotFound
  | skippedDup
  | skippedNoDetails
  | success (e : Expense)
  | raised (er : PyErr)
  deriving Repr, DecidableEq

/-- External collaborators of the gmail pipeline: BeautifulSoup, dateutil and
the two `datetime.now()` readings. -/
structure GEnv where
  htmlToText : List Char → List Char
  parseDate : List Char → Option Date
  today : Date
  nowMonth : Nat

/-- `process_email_message` (gmail-integration.py lines 55-127): user check,
dedup on `email_id` alone, header extraction, body decode, field extraction,
categorization, commit.  No step is wrapped in a try/except, so decode and
extraction exceptions abort the task with the state unchanged. -/
def process_email_message (st : DbState) (user_id : Nat) (message_id : List Char)
    (msg : GMsg) (env : GEnv) : GResult × DbState :=
  if !(st.users.contains user_id) then (.errUserNotFound, st)
  else if st.expenses.any fun e => e.email_id = message_id then (.skippedDup, st)
  else
    match body_text msg.payload with
    | .error er => (.raised er, st)
    | .ok text =>
      match extract_expense_details env.htmlToText text
          (headerExact msg.headers ("Subject").toList) with
      | .error er => (.raised er, st)
      | .ok none => (.skippedNoDetails, st)
      | .ok (some r) =>
        let expense : Expense :=
          ⟨(env.parseDate (headerExact msg.headers ("Date").toList)).getD env.today,
           r.amount, some r.merchant, r.description.getD [],
           user_id, message_id,
           categorize_expense st.categories user_id r.merchant
             (r.description.getD []) env.nowMonth⟩
        (.success expense, {st with expenses := st.expenses ++ [expense]})

end Gmail

namespace ML

/-- The dictionary returned by `ExpenseNLPProcessor.extract_email_info`
(advanced-ai-backend.py lines 173-215).  Its four lists are produced by spaCy
tokenization / entity recognition plus a regex scan, so the pipeline embedding
takes them as input from the environment. -/
structure NlpResults where
  amounts : List ℚ
  merchants : List (List Char)
  dates : List (List Char)
  order_numbers : List (List Char)

/-- A result dictionary of `MLEmailParser`.  `none` in an outer `Option`
models an absent key; the merchant key, when present, can hold Python `None`
(hence the nested `Option`). -/
structure MCand where
  amount : Option ℚ
  merchant : Option (Option (List Char))
  date : Option Date
  description : Option (List Char)
  deriving Repr, DecidableEq

/-- `MLEmailParser.validate_extraction` (advanced-ai-backend.py lines
786-803): reject `None` results, results missing the amount or merchant key,
falsy / out-of-bounds amounts, and falsy / too-short merchants. -/
def validate_extraction : Option MCand → Bool
  | none => false
  | some r =>
    match r.amount, r.merchant with
    | some a, some m =>
      if a = 0 || decide (a ≤ 0) || decide (a > 50000) then false
      else
        match m with
        | none => false
        | some mm => !(mm = [] || mm.length < 2)
    | _, _ => false

/-- Subject patterns of `MLEmailParser.extract_merchant_from_subject`
(advanced-ai-backend.py lines 767-772). -/
def ml_subject_patterns : List Re :=
  [cat [alts [L "Receipt", L "Order", L "Confirmation"], L " from ",
        .grp (.many1 isOrgC)],
   cat [.grp (.many1 isOrgC), L " Order Confirmation"],
   cat [L "Your ", .grp (.many1 isOrgC), L " order"],
   cat [L "Thanks for your ", .grp (.many1 isOrgC), L " order"]]

/-- `MLEmailParser.extract_merchant_from_subject` (lines 751-784):
spaCy organization entities first (modelled by `spacyOrgs`), then the regex
patterns, then the first whitespace token, then the literal fallback. -/
def extract_merchant_from_subject (spacyOrgs : List Char → List (List Char))
    (subject : List Char) : Option (List Char) :=
  if subject = [] then none
  else
    match spacyOrgs subject with
    | o :: _ => some o
    | [] =>
      match firstSearch ml_subject_patterns subject with
      | some m => some (pyStrip m)
      | none =>
        match pySplit subject with
        | w :: _ => some w
        | [] => some ("Unknown Merchant").toList

/-- Occurrences of a string in a list. -/
def countOcc (l : List (List Char)) (x : List Char) : Nat :=
  (l.filter fun y => y = x).length

/-- `Counter(merchants).most_common(1)[0][0]`: the most frequent element,
ties resolved toward the earliest first occurrence. -/
def mostCommon (l : List (List Char)) : List Char :=
  let uniq := l.foldl (fun acc x => if acc.contains x then acc else acc ++ [x]) []
  match uniq with
  | [] => []
  | u :: us => us.foldl (fun best x => if countOcc l x > countOcc l best then x else best) u

/-- Python `max` over a nonempty float list. -/
def pyMax (l : List ℚ) : ℚ :=
  match l with
  | [] => 0
  | x :: xs => xs.foldl max x

/-- The amount step of the fallback branch (advanced-ai-backend.py lines
642-650): nothing when spaCy found no amounts, otherwise the maximum of the
amounts within the plausible range [1, 10000], or the overall maximum when
none is in range. -/
def fallback_amount (amounts : List ℚ) : Option ℚ :=
  match amounts with
  | [] => none
  | _ =>
    let filtered := amounts.filter fun a => decide (1 ≤ a) && decide (a ≤ 10000)
    if filtered ≠ [] then some (pyMax filtered) else some (pyMax amounts)

/-- The date step of the fallback branch (lines 662-670): the first date
entity parsed by dateutil, with `datetime.now().date()` substituted both on
parse failure and when no date entity exists. -/
def fallback_date (dates : List (List Char))
    (parseDate : List Char → Option Date) (today : Date) : Date :=
  match dates with
  | [] => today
  | d :: _ => (parseDate d).getD today

/-- The traditional-NLP fallback branch of `MLEmailParser.
extract_expense_details` (advanced-ai-backend.py lines 635-677): amount from
the spaCy amounts via the in-range-max / overall-max heuristic, merchant from
the most frequent organization or the subject (possibly Python `None`), date
from the first date entity with `datetime.now().date()` on parse failure or
absence, description from the first order number.  Returns `None` exactly
when no amount was found, since the merchant key is always set. -/
def fallback_extract (nlp : NlpResults) (subject : List Char)
    (spacyOrgs : List Char → List (List Char))
    (parseDate : List Char → Option Date) (today : Date) : Option MCand :=
  let merchant : Option (List Char) :=
    match nlp.merchants with
    | [] => extract_merchant_from_subject spacyOrgs subject
    | _ => some (mostCommon nlp.merchants)
  let desc : List Char :=
    match nlp.order_numbers with
    | [] => []
    | o :: _ => ("Order #").toList ++ o
  match fallback_amount nlp.amounts with
  | some a => some ⟨some a, some merchant,
      some (fallback_date nlp.dates parseDate today), some desc⟩
  | none => none

/-- `MLEmailParser.extract_expense_details` (lines 627-677).  `tr` models the
transformer branch: `some r` when a NER model is loaded and
`extract_with_transformers` returned the dictionary `r`, `none` when the
model is unavailable or that call returned `None`.  A validated transformer
result is returned as-is; everything else falls back unconditionally. -/
def extract_expense_details (tr : Option MCand) (nlp : NlpResults)
    (subject : List Char) (spacyOrgs : List Char → List (List Char))
    (parseDate : List Char → Option Date) (today : Date) : Option MCand :=
  if validate_extraction tr then tr
  else fallback_extract nlp subject spacyOrgs parseDate today

end ML

namespace Sched

/-- First `text/plain` part with nonempty data (task-scheduler.py lines
168-174; a plain part with empty data does not break the loop). -/
def first_plain_data (parts : List MsgPart) : Option (List Char) :=
  (parts.find? fun p => p.mimeType = ("text/plain").toList && p.data ≠ []).map MsgPart.data

/-- First `text/html` part with nonempty data (lines 177-187). -/
def first_html_data (parts : List MsgPart) : Option (List Char) :=
  (parts.find? fun p => p.mimeType = ("text/html").toList && p.data ≠ []).map MsgPart.data

/-- `extract_email_body` (task-scheduler.py lines 161-194).  `htmlToText`
models `BeautifulSoup(html).get_text(separator=' ', strip=True)`.  Decoding
is NOT guarded here: malformed base64 or invalid UTF-8 raises out of this
function (the caller's catch-all then aborts the message). -/
def extract_email_body (htmlToText : List Char → List Char) (payload : Payload) :
    Except PyErr (List Char) :=
  match payload.parts with
  | some parts => do
    let t ← (match first_plain_data parts with
             | some d => decodeText d
             | none => .ok [])
    if t = [] then
      match first_html_data parts with
      | some d => do
        let h ← decodeText d
        .ok (htmlToText h)
      | none => .ok []
    else .ok t
  | none =>
    if payload.data ≠ [] then decodeText payload.data else .ok []

/-- Smallest unused category id, modelling the autoincrement key the ORM
assigns on `db.flush()`. -/
def fresh_id (cats : List Categ) : Nat := (cats.map Categ.id).foldl max 0 + 1

/-- `categorize_expense` (task-scheduler.py lines 196-218): look the predicted
name up case-insensitively among the user's categories, create the category
if absent, and return the id to store (or `none` when the prediction is falsy). -/
def categorize_expense (cats : List Categ) (uid : Nat)
    (predicted : Option (List Char)) : Option Nat × List Categ :=
  match predicted with
  | none => (none, cats)
  | some name =>
    if name = [] then (none, cats)
    else
      match cats.find? fun c => c.user_id = uid && toLowerL c.name = toLowerL name with
      | some c => (some c.id, cats)
      | none =>
        let nid := fresh_id cats
        (some nid, cats ++ [⟨nid, uid, name⟩])

/-- Observable outcome of one `process_email` run (the function itself
returns `None`; these tags mirror its log lines and state effects). -/
inductive TResult where
  | skippedAlready
  | noDetails
  | created (e : Expense)
  | errored (er : PyErr)
  deriving Repr, DecidableEq

/-- External collaborators of the scheduler pipeline: BeautifulSoup, dateutil,
`datetime.now`, the transformer branch, spaCy extraction, and the category
predictor (`ExpenseNLPProcessor.predict_category`). -/
structure TEnv where
  htmlToText : List Char → List Char
  parseDate : List Char → Option Date
  today : Date
  tr : Option ML.MCand
  nlpInfo : List Char → ML.NlpResults
  spacyOrgs : List Char → List (List Char)
  predictCategory : Option (List Char) → List Char → Option (List Char)

/-- `process_email` (task-scheduler.py lines 96-159): dedup on `email_id`
alone, header extraction (case-insensitive names), body extraction, the ML
parser, the `'amount' in results and 'merchant' in results` gate, then
categorize and commit.  All work after the dedup check sits in a try/except
whose handler rolls back, so an exception leaves the state unchanged. -/
def process_email (st : DbState) (uid : Nat) (message_id : List Char)
    (msg : GMsg) (env : TEnv) : TResult × DbState :=
  if st.expenses.any fun e => e.email_id = message_id then (.skippedAlready, st)
  else
    match extract_email_body env.htmlToText msg.payload with
    | .error er => (.errored er, st)
    | .ok text =>
      match ML.extract_expense_details env.tr (env.nlpInfo text)
          (headerLower msg.headers ("subject").toList)
          env.spacyOrgs env.parseDate env.today with
      | none => (.noDetails, st)
      | some r =>
        if r.amount.isSome && r.merchant.isSome then
          let pair := categorize_expense st.categories uid
            (env.predictCategory (r.merchant.getD none) (r.description.getD []))
          let expense : Expense :=
            ⟨(r.date).getD ((env.parseDate (headerLower msg.headers
                (("date").toList))).getD env.today),
             r.amount.getD 0, r.merchant.getD none,
             r.description.getD [], uid, message_id, pair.1⟩
          (.created expense,
           {st with categories := pair.2, expenses := st.expenses ++ [expense]})
        else (.noDetails, st)

end Sched

namespace WS

/-- `ConnectionManager.active_connections`: user id to connection list
(connections as opaque numeric identities). -/
abbrev ConnState := List (Nat × List Nat)

/-- `user_id in self.active_connections`. -/
def hasKey (st : ConnState) (uid : Nat) : Bool := st.any fun p => p.1 = uid

/-- `self.active_connections[uid]` (first entry; the registry, being a dict,
holds at most one entry per key). -/
def lookupKey (st : ConnState) (uid : Nat) : Option (List Nat) :=
  (st.find? fun p => p.1 = uid).map Prod.snd

/-- `self.active_connections[uid].append(ws)` on the entry of `uid`. -/
def appendAt : ConnState → Nat → Nat → ConnState
  | [], _, _ => []
  | p :: rest, uid, ws =>
    if p.1 = uid then (p.1, p.2 ++ [ws]) :: rest else p :: appendAt rest uid ws

/-- `self.active_connections[uid].remove(ws)` guarded by the membership test
(`List.erase` of an absent element is likewise the identity). -/
def eraseAt : ConnState → Nat → Nat → ConnState
  | [], _, _ => []
  | p :: rest, uid, ws =>
    if p.1 = uid then (p.1, p.2.erase ws) :: rest else p :: eraseAt rest uid ws

/-- `del self.active_connections[uid]`. -/
def delKey : ConnState → Nat → ConnState
  | [], _ => []
  | p :: rest, uid => if p.1 = uid then delKey rest uid else p :: delKey rest uid

/-- `ConnectionManager.connect` (websocket-manager.py lines 13-20): ensure the
key exists with an empty list, then append the connection. -/
def connect (st : ConnState) (uid ws : Nat) : ConnState :=
  let st1 := if hasKey st uid then st else st ++ [(uid, [])]
  appendAt st1 uid ws

/-- `ConnectionManager.disconnect` (lines 22-30): remove the connection if
present, then delete the key when its list has become empty. -/
def disconnect (st : ConnState) (uid ws : Nat) : ConnState :=
  if hasKey st uid then
    let st1 := eraseAt st uid ws
    if (lookupKey st1 uid).getD [] = [] then delKey st1 uid else st1
  else st

/-- A registry operation. -/
inductive Op where
  | conn (uid ws : Nat)
  | disc (uid ws : Nat)

/-- Apply one operation. -/
def applyOp (st : ConnState) : Op → ConnState
  | .conn u w => connect st u w
  | .disc u w => disconnect st u w

/-- Run a sequence of operations from the initial empty registry. -/
def run (ops : List Op) : ConnState := ops.foldl applyOp []

end WS

/-! ## Concrete inputs for the witnesses and counterexamples -/

/-- A database holding users 1 and 2 and nothing else. -/
def stInit : DbState := ⟨[1, 2], [], []⟩

/-- A message with no headers and an empty single-part body. -/
def msgEmpty : GMsg := ⟨[], ⟨none, []⟩⟩

/-- Inert external collaborators for the gmail pipeline: HTML passes through,
dateutil always fails, now = 2025-05-05. -/
def gEnv0 : Gmail.GEnv := ⟨id, fun _ => none, ⟨2025, 5, 5⟩, 5⟩

/-- A purchase email: the subject names the merchant and the single-part body
is the base64url encoding of "total charge $45.00". -/
def msgAmazon : GMsg :=
  ⟨[(("Subject").toList, ("Amazon order").toList)],
   ⟨none, ("dG90YWwgY2hhcmdlICQ0NS4wMA==").toList⟩⟩

/-- The expense the gmail pipeline persists from `msgAmazon` for a given user
and message id (no category: the two-user database has none). -/
def expAmazon (uid : Nat) (mid : List Char) : Expense :=
  ⟨⟨2025, 5, 5⟩, 45, some ("Amazon").toList, [], uid, mid, none⟩

/-- A purchase email whose body (base64url of "total charge $60000.50")
carries an out-of-bounds total. -/
def msgBig : GMsg :=
  ⟨[(("Subject").toList, ("Amazon order").toList)],
   ⟨none, ("dG90YWwgY2hhcmdlICQ2MDAwMC41MA==").toList⟩⟩

/-- Scheduler environment for the C1 counterexample: no transformer model,
and spaCy reports a single out-of-range amount next to a merchant. -/
def c1Env : Sched.TEnv :=
  ⟨id, fun _ => none, ⟨2025, 5, 5⟩, none,
   fun _ => ⟨[999999], [("Amazon").toList], [], []⟩, fun _ => [], fun _ _ => none⟩

/-- A validated transformer result used to witness the amended C1. -/
def trValid : ML.MCand :=
  ⟨some 45, some (some ("Amazon").toList), some ⟨2024, 2, 2⟩, some []⟩

/-- Scheduler environment whose transformer branch returns `trValid`. -/
def c1EnvW : Sched.TEnv :=
  ⟨id, fun _ => none, ⟨2025, 5, 5⟩, some trValid,
   fun _ => ⟨[], [], [], []⟩, fun _ => [], fun _ _ => none⟩

/-- The expense persisted by `Sched.process_email` under `c1EnvW`. -/
def expTrValid : Expense :=
  ⟨⟨2024, 2, 2⟩, 45, some ("Amazon").toList, [], 1, ("c1w").toList, none⟩

/-- Scheduler environment for the C8 counterexample: dateutil can parse the
message's Date header, spaCy finds an amount and a merchant but no date
entity, and now = 2025-05-05. -/
def c8Env : Sched.TEnv :=
  ⟨id,
   (fun s => if s = ("Mon, 01 Jan 2024").toList then some ⟨2024, 1, 1⟩ else none),
   ⟨2025, 5, 5⟩, none,
   fun _ => ⟨[45], [("Amazon").toList], [], []⟩, fun _ => [], fun _ _ => none⟩

/-- A message carrying only a Date header (sent 2024-01-01). -/
def msgDated : GMsg :=
  ⟨[(("Date").toList, ("Mon, 01 Jan 2024").toList)], ⟨none, []⟩⟩

/-- Text where the two spec phrases are adjacent: the first amount pattern
then matches across the phrase boundary. -/
def c6adj : List Char := ("$45.00 total $12,000 reference number").toList

/-- Text where a sentence boundary separates the two phrases. -/
def c6sep : List Char := ("$45.00 total. $12,000 reference number").toList

/-- The categories of the C7 witness user: Transportation (id 7) and
Holiday (id 3). -/
def cats7 : List Categ :=
  [⟨7, 1, ("Transportation").toList⟩, ⟨3, 1, ("Holiday").toList⟩]

/-! ## Helper lemmas -/

/-- Characterization of the validator on a present result. -/
theorem validate_some_iff (r : ML.MCand) :
    ML.validate_extraction (some r) = true ↔
      ((∃ a, r.amount = some a ∧ 0 < a ∧ a ≤ 50000) ∧
       (∃ m, r.merchant = some (some m) ∧ 2 ≤ m.length)) := by
  obtain ⟨oa, om, od, ods⟩ := r
  cases oa with
  | none => simp [ML.validate_extraction]
  | some a =>
    cases om with
    | none => simp [ML.validate_extraction]
    | some m =>
      cases m with
      | none => simp [ML.validate_extraction]
      | some mm =>
        by_cases hle : a ≤ 0
        · refine iff_of_false (by simp [ML.validate_extraction, hle]) ?_
          rintro ⟨⟨a2, ha2, h1, _⟩, _⟩
          rw [Option.some.injEq] at ha2
          subst ha2
          exact absurd h1 (not_lt.mpr hle)
        · by_cases hgt : (50000 : ℚ) < a
          · refine iff_of_false (by simp [ML.validate_extraction, hgt]) ?_
            rintro ⟨⟨a2, ha2, _, h2⟩, _⟩
            rw [Option.some.injEq] at ha2
            subst ha2
            exact absurd h2 (not_le.mpr hgt)
          · have hz : a ≠ 0 := fun hc => hle (le_of_eq hc)
            have h1 : 0 < a := not_le.mp hle
            have h2 : a ≤ 50000 := not_lt.mp hgt
            by_cases hml : mm.length < 2
            · refine iff_of_false (by simp [ML.validate_extraction, hz, hle, hgt, hml]) ?_
              rintro ⟨_, ⟨m2, hm2, hlen⟩⟩
              rw [Option.some.injEq, Option.some.injEq] at hm2
              subst hm2
              exact absurd hlen (not_le.mpr hml)
            · have hne : mm ≠ [] := by
                intro hc
                subst hc
                exact hml (by simp)
              refine iff_of_true (by simp [ML.validate_extraction, hz, hle, hgt, hml, hne]) ?_
              exact ⟨⟨a, rfl, h1, h2⟩, ⟨mm, rfl, not_lt.mp hml⟩⟩

/-- The first pattern (in priority order) whose search succeeds determines
the result of `firstSearch`. -/
theorem firstSearch_first (ps : List Re) (text : List Char) :
    ∀ i p g, ps.get? i = some p →
      (∀ j q, j < i → ps.get? j = some q → re_search q text = none) →
      re_search p text = some g →
      firstSearch ps text = some g := by
  induction ps with
  | nil => intro i p g hp _ _; simp at hp
  | cons hd tl ih =>
    intro i p g hp hnone hg
    cases i with
    | zero =>
      simp only [List.get?_cons_zero, Option.some.injEq] at hp
      subst hp
      simp [firstSearch, hg]
    | succ n =>
      have h0 : re_search hd text = none := hnone 0 hd (Nat.succ_pos n) rfl
      simp only [List.get?_cons_succ] at hp
      simp only [firstSearch, h0]
      exact ih n p g hp (fun j q hj hq => hnone (j + 1) q (by omega) hq) hg

/-- When no pattern matches, `firstSearch` yields nothing. -/
theorem firstSearch_none (ps : List Re) (text : List Char)
    (h : ∀ p ∈ ps, re_search p text = none) : firstSearch ps text = none := by
  induction ps with
  | nil => rfl
  | cons hd tl ih =>
    have h0 : re_search hd text = none := h hd (List.mem_cons_self _ _)
    simp only [firstSearch, h0]
    exact ih fun p hp => h p (List.mem_cons_of_mem _ hp)

/-- The three first-match loop facts about `ruleHit`. -/
theorem ruleHit_first (dict : List (List Char × Nat)) (ml : List Char)
    (rules : List (List Char × List (List Char))) :
    ∀ i cname kws cid, rules.get? i = some (cname, kws) →
      (kws.any fun k => containsSub ml k) = true →
      Gmail.dictGet dict cname = some cid →
      (∀ j cname2 kws2, j < i → rules.get? j = some (cname2, kws2) →
        ¬(((kws2.any fun k => containsSub ml k) = true) ∧
          (Gmail.dictGet dict cname2).isSome = true)) →
      Gmail.ruleHit dict ml rules = some cid := by
  induction rules with
  | nil => intro i cname kws cid hp _ _ _; simp at hp
  | cons hd tl ih =>
    intro i cname kws cid hp hhit hheld hfirst
    obtain ⟨cn0, kw0⟩ := hd
    cases i with
    | zero =>
      simp only [List.get?_cons_zero, Option.some.injEq, Prod.mk.injEq] at hp
      obtain ⟨h1, h2⟩ := hp
      subst h1; subst h2
      simp [Gmail.ruleHit, hhit, hheld]
    | succ n =>
      simp only [List.get?_cons_succ] at hp
      have h0 := hfirst 0 cn0 kw0 (Nat.succ_pos n) rfl
      rw [Gmail.ruleHit]
      have hc : ((kw0.any fun k => containsSub ml k) &&
          (Gmail.dictGet dict cn0).isSome) = false := by
        rcases Bool.eq_false_or_eq_true (kw0.any fun k => containsSub ml k) with hb | hb
        · rcases Bool.eq_false_or_eq_true (Gmail.dictGet dict cn0).isSome with hs | hs
          · exact absurd ⟨hb, hs⟩ h0
          · simp [hs]
        · simp [hb]
      rw [hc]
      simp only [Bool.false_eq_true, if_false]
      exact ih n cname kws cid hp hhit hheld
        (fun j c2 k2 hj hq => hfirst (j + 1) c2 k2 (by omega) hq)

/-! ## The claims -/

/-- C2 (code bug): the heuristic field extractor is specified never to raise,
with the sender-domain fallback as one of its merchant sources; but when no
subject or body pattern yields a merchant, `extract_expense_details` executes
`for header in message['payload']['headers']` where `message` is not defined
in that scope, so the call raises `NameError` instead of terminating
normally.  Evaluation of the embedding at such an input: -/
theorem c2_merchant_fallback_raises_name_error :
    Gmail.extract_expense_details id (("hello world").toList) [] =
      .error (.nameError "message") := by decide

/-- C3 (confirmed): `validate_extraction` rejects exactly when the amount is
absent (no key, which the fallback never produces with a `None` value), not
positive, or above 50000, or when the merchant is absent (no key or a `None`
value) or shorter than two characters; it accepts otherwise.  It is a pure
function of its argument by construction. -/
theorem c3_validator_rejects_exactly_out_of_bounds (r : ML.MCand) :
    ML.validate_extraction (some r) = false ↔
      (r.amount = none ∨ (∃ a, r.amount = some a ∧ (a ≤ 0 ∨ 50000 < a)) ∨
       r.merchant = none ∨ r.merchant = some none ∨
       (∃ m, r.merchant = some (some m) ∧ m.length < 2)) := by
  obtain ⟨oa, om, od, ods⟩ := r
  cases oa with
  | none => simp [ML.validate_extraction]
  | some a =>
    cases om with
    | none => simp [ML.validate_extraction]
    | some m =>
      cases m with
      | none => simp [ML.validate_extraction]
      | some mm =>
        by_cases hle : a ≤ 0
        · exact iff_of_true (by simp [ML.validate_extraction, hle])
            (Or.inr (Or.inl ⟨a, rfl, Or.inl hle⟩))
        · by_cases hgt : (50000 : ℚ) < a
          · exact iff_of_true (by simp [ML.validate_extraction, hgt])
              (Or.inr (Or.inl ⟨a, rfl, Or.inr hgt⟩))
          · have hz : a ≠ 0 := fun hc => hle (le_of_eq hc)
            by_cases hml : mm.length < 2
            · exact iff_of_true (by simp [ML.validate_extraction, hz, hle, hgt, hml])
                (Or.inr (Or.inr (Or.inr (Or.inr ⟨mm, rfl, hml⟩))))
            · have hne : mm ≠ [] := by
                intro hc
                subst hc
                exact hml (by simp)
              refine iff_of_false (by simp [ML.validate_extraction, hz, hle, hgt, hml, hne]) ?_
              rintro (h | ⟨a2, ha2, hbad⟩ | h | h | ⟨m2, hm2, hlen⟩)
              · exact absurd h (by simp)
              · rw [Option.some.injEq] at ha2
                subst ha2
                rcases hbad with hb | hb
                · exact hle hb
                · exact hgt hb
              · exact absurd h (by simp)
              · exact absurd h (by simp)
              · rw [Option.some.injEq, Option.some.injEq] at hm2
                subst hm2
                exact hml hlen

/-- C5 (corrected, counterexample): a malformed-base64 body raises
`binascii.Error` out of `extract_email_body`, and a body that decodes to
invalid UTF-8 raises `UnicodeDecodeError` — neither yields the empty
string the claim promises. -/
theorem c5_counterexample_undecodable_raises :
    Sched.extract_email_body id ⟨none, ("abc").toList⟩ = .error .b64Error ∧
    Sched.extract_email_body id ⟨none, ("_w==").toList⟩ = .error .unicodeError :=
  ⟨by decide, by decide⟩

/-- C5 (amended): for every payload whose body data is empty or absent (in
every part, for multi-part payloads), `extract_email_body` returns the empty
string without raising; undecodable data, however, raises the decode
exception (see the counterexample), which only the caller's catch-all turns
into a skipped message. -/
theorem c5_amended_empty_body_yields_empty_string
    (hT : List Char → List Char) (p : Payload) :
    (p.parts = none → p.data = [] → Sched.extract_email_body hT p = .ok []) ∧
    (∀ ps, p.parts = some ps → (∀ part ∈ ps, part.data = []) →
      Sched.extract_email_body hT p = .ok []) := by
  constructor
  · intro hp hd
    simp [Sched.extract_email_body, hp, hd]
  · intro ps hp hall
    have h1 : Sched.first_plain_data ps = none := by
      rw [Sched.first_plain_data]
      rw [List.find?_eq_none.mpr]
      · rfl
      · intro part hmem
        simp [hall part hmem]
    have h2 : Sched.first_html_data ps = none := by
      rw [Sched.first_html_data]
      rw [List.find?_eq_none.mpr]
      · rfl
      · intro part hmem
        simp [hall part hmem]
    simp only [Sched.extract_email_body, hp, h1, h2]
    rfl

/-- Witness for the amended C5 at two concrete payloads. -/
theorem c5_amended_empty_body_witness :
    Sched.extract_email_body id ⟨none, []⟩ = .ok [] ∧
    Sched.extract_email_body id ⟨some [⟨("text/plain").toList, []⟩], []⟩ = .ok [] :=
  ⟨(c5_amended_empty_body_yields_empty_string id ⟨none, []⟩).1 rfl rfl,
   (c5_amended_empty_body_yields_empty_string id
      ⟨some [⟨("text/plain").toList, []⟩], []⟩).2
      [⟨("text/plain").toList, []⟩] rfl (by decide)⟩

/-- C6 (corrected, counterexample): the text below contains both
"$45.00 total" and "$12,000 reference number", yet the extracted amount is
12.00, not 45.00: with the two phrases adjacent, the first priority pattern
matches "total $12" across the phrase boundary, and pattern priority makes
it win. -/
theorem c6_counterexample_adjacent_phrases :
    containsSub c6adj (("$45.00 total").toList) = true ∧
    containsSub c6adj (("$12,000 reference number").toList) = true ∧
    Gmail.extract_amount c6adj = some 12 ∧ ((12 : ℚ) ≠ 45) :=
  ⟨by decide, by decide, by decide, by decide⟩

/-- C6 (amended): amount extraction applies its patterns in fixed priority
order and uses the first one that matches at least once; the looser `$`-only
pattern is consulted only when no priority pattern matched.  On the spec's
example with the phrases separated ("$45.00 total. $12,000 reference
number") the result is 45.00 — but that outcome is not guaranteed for every
text containing both phrases (see the counterexample). -/
theorem c6_amended_pattern_priority :
    (∀ text i p g, Gmail.amount_patterns.get? i = some p →
      (∀ j q, j < i → Gmail.amount_patterns.get? j = some q →
        re_search q text = none) →
      re_search p text = some g →
      Gmail.extract_amount text = some (pyFloat (g.filter fun c => c ≠ ','))) ∧
    (∀ text, (∀ p ∈ Gmail.amount_patterns, re_search p text = none) →
      Gmail.extract_amount text = (re_search Gmail.generalAmountPat text).map
        fun g => pyFloat (g.filter fun c => c ≠ ',')) ∧
    Gmail.extract_amount c6sep = some 45 := by
  refine ⟨?_, ?_, by decide⟩
  · intro text i p g hp hnone hg
    have h := firstSearch_first Gmail.amount_patterns text i p g hp hnone hg
    simp [Gmail.extract_amount, h]
  · intro text h
    have h2 := firstSearch_none Gmail.amount_patterns text h
    simp [Gmail.extract_amount, h2]

/-- Witness for the amended C6: on "$45.00 total" the second pattern is the
first to match (the first one fails), and the extracted amount is 45. -/
theorem c6_amended_pattern_priority_witness :
    Gmail.extract_amount (("$45.00 total").toList) = some 45 := by
  have h := c6_amended_pattern_priority.1 (("$45.00 total").toList) 1
    Gmail.amountPat2 (("45.00").toList) rfl
    (by
      intro j q hj hq
      have hj0 : j = 0 := by omega
      subst hj0
      simp only [Gmail.amount_patterns, List.get?_cons_zero, Option.some.injEq] at hq
      subst hq
      decide)
    (by decide)
  rw [h]
  decide

/-- C7 (confirmed): the first merchant-keyword rule (in table order) whose
keyword hits the merchant and whose category the user holds determines the
assigned category, for every description and every month — so such a rule
beats the seasonal gift rule even in November/December with a gift
description. -/
theorem c7_merchant_rule_beats_seasonal (cats : List Categ) (uid : Nat)
    (merchant description : List Char) (month : Nat)
    (i : Nat) (cname : List Char) (kws : List (List Char)) (cid : Nat)
    (hi : Gmail.merchant_rules.get? i = some (cname, kws))
    (hhit : (kws.any fun k => containsSub (toLowerL merchant) k) = true)
    (hheld : Gmail.dictGet (Gmail.category_dict cats uid) cname = some cid)
    (hfirst : ∀ j cname2 kws2, j < i →
      Gmail.merchant_rules.get? j = some (cname2, kws2) →
      ¬(((kws2.any fun k => containsSub (toLowerL merchant) k) = true) ∧
        (Gmail.dictGet (Gmail.category_dict cats uid) cname2).isSome = true)) :
    Gmail.categorize_expense cats uid merchant description month = some cid := by
  have h := ruleHit_first (Gmail.category_dict cats uid) (toLowerL merchant)
    Gmail.merchant_rules i cname kws cid hi hhit hheld hfirst
  simp [Gmail.categorize_expense, h]

/-- Witness for C7: merchant "Uber Eats" with description "gift for mom" in
December resolves to the user's Transportation category (id 7), not to the
Holiday category the user also has. -/
theorem c7_merchant_rule_beats_seasonal_witness :
    Gmail.categorize_expense cats7 1 (("Uber Eats").toList)
      (("gift for mom").toList) 12 = some 7 := by
  apply c7_merchant_rule_beats_seasonal cats7 1 _ _ 12 2
    (("transportation").toList)
    [("uber").toList, ("lyft").toList, ("amtrak").toList,
     ("delta").toList, ("southwest").toList, ("united").toList] 7 rfl
  · decide
  · decide
  · intro j cname2 kws2 hj hq
    have : j = 0 ∨ j = 1 := by omega
    rcases this with h0 | h1
    · subst h0
      simp only [Gmail.merchant_rules, List.get?_cons_zero, Option.some.injEq,
        Prod.mk.injEq] at hq
      obtain ⟨hq1, hq2⟩ := hq
      subst hq1; subst hq2
      decide
    · subst h1
      simp only [Gmail.merchant_rules, List.get?_cons_succ, List.get?_cons_zero,
        Option.some.injEq, Prod.mk.injEq] at hq
      obtain ⟨hq1, hq2⟩ := hq
      subst hq1; subst hq2
      decide

/-- Appending a connection to an entry never empties a list. -/
theorem ws_inv_appendAt (st : WS.ConnState) (uid ws : Nat)
    (h : ∀ p ∈ st, p.2 ≠ []) : ∀ p ∈ WS.appendAt st uid ws, p.2 ≠ [] := by
  induction st with
  | nil => intro q hq; simp [WS.appendAt] at hq
  | cons hd tl ih =>
    intro q hq
    rw [WS.appendAt] at hq
    by_cases hk : hd.1 = uid
    · rw [if_pos hk] at hq
      rcases List.mem_cons.mp hq with h1 | h1
      · subst h1; simp
      · exact h q (List.mem_cons_of_mem _ h1)
    · rw [if_neg hk] at hq
      rcases List.mem_cons.mp hq with h1 | h1
      · subst h1; exact h _ (List.mem_cons_self _ _)
      · exact ih (fun p hp => h p (List.mem_cons_of_mem _ hp)) q h1

/-- Appending under a fresh key turns the sentinel empty entry into a
singleton. -/
theorem ws_appendAt_fresh (st : WS.ConnState) (uid ws : Nat)
    (h : ∀ p ∈ st, p.1 ≠ uid) :
    WS.appendAt (st ++ [(uid, [])]) uid ws = st ++ [(uid, [ws])] := by
  induction st with
  | nil => simp [WS.appendAt]
  | cons hd tl ih =>
    rw [List.cons_append, WS.appendAt, if_neg (h hd (List.mem_cons_self _ _)),
      ih fun p hp => h p (List.mem_cons_of_mem _ hp)]
    rfl

/-- `connect` preserves the all-lists-nonempty invariant. -/
theorem ws_inv_connect (st : WS.ConnState) (uid ws : Nat)
    (h : ∀ p ∈ st, p.2 ≠ []) : ∀ p ∈ WS.connect st uid ws, p.2 ≠ [] := by
  rw [WS.connect]
  by_cases hk : WS.hasKey st uid
  · rw [if_pos hk]
    exact ws_inv_appendAt st uid ws h
  · rw [if_neg hk]
    have hfresh : ∀ p ∈ st, p.1 ≠ uid := by
      intro p hp hc
      rw [WS.hasKey] at hk
      exact hk (List.any_eq_true.mpr ⟨p, hp, by simp [hc]⟩)
    rw [ws_appendAt_fresh st uid ws hfresh]
    intro q hq
    rcases List.mem_append.mp hq with h1 | h1
    · exact h q h1
    · rw [List.mem_singleton.mp h1]
      simp

/-- Entries of `eraseAt` with a key other than the erased one come from the
original registry unchanged. -/
theorem ws_mem_eraseAt_ne (st : WS.ConnState) (uid ws : Nat) :
    ∀ q ∈ WS.eraseAt st uid ws, q.1 ≠ uid → q ∈ st := by
  induction st with
  | nil => intro q hq; simp [WS.eraseAt] at hq
  | cons hd tl ih =>
    intro q hq hne
    rw [WS.eraseAt] at hq
    by_cases hk : hd.1 = uid
    · rw [if_pos hk] at hq
      rcases List.mem_cons.mp hq with h1 | h1
      · exact absurd (by rw [h1]; exact hk) hne
      · exact List.mem_cons_of_mem _ h1
    · rw [if_neg hk] at hq
      rcases List.mem_cons.mp hq with h1 | h1
      · subst h1; exact List.mem_cons_self _ _
      · exact List.mem_cons_of_mem _ (ih q h1 hne)

/-- Entries surviving `delKey` come from the original registry and never
carry the deleted key. -/
theorem ws_mem_delKey (st : WS.ConnState) (uid : Nat) :
    ∀ q ∈ WS.delKey st uid, q ∈ st ∧ q.1 ≠ uid := by
  induction st with
  | nil => intro q hq; simp [WS.delKey] at hq
  | cons hd tl ih =>
    intro q hq
    rw [WS.delKey] at hq
    by_cases hk : hd.1 = uid
    · rw [if_pos hk] at hq
      obtain ⟨h1, h2⟩ := ih q hq
      exact ⟨List.mem_cons_of_mem _ h1, h2⟩
    · rw [if_neg hk] at hq
      rcases List.mem_cons.mp hq with h1 | h1
      · subst h1; exact ⟨List.mem_cons_self _ _, hk⟩
      · obtain ⟨h1, h2⟩ := ih q h1
        exact ⟨List.mem_cons_of_mem _ h1, h2⟩

/-- When the erased entry remains nonempty (the branch that keeps the key),
the whole registry keeps the invariant. -/
theorem ws_inv_eraseAt_keep (st : WS.ConnState) (uid ws : Nat)
    (h : ∀ p ∈ st, p.2 ≠ [])
    (hcond : (WS.lookupKey (WS.eraseAt st uid ws) uid).getD [] ≠ []) :
    ∀ p ∈ WS.eraseAt st uid ws, p.2 ≠ [] := by
  induction st with
  | nil => intro q hq; simp [WS.eraseAt] at hq
  | cons hd tl ih =>
    intro q hq
    rw [WS.eraseAt] at hq hcond
    by_cases hk : hd.1 = uid
    · rw [if_pos hk] at hq hcond
      have hlk : WS.lookupKey ((hd.1, hd.2.erase ws) :: tl) uid
          = some (hd.2.erase ws) := by
        simp [WS.lookupKey, List.find?_cons, hk]
      rw [hlk] at hcond
      simp only [Option.getD_some] at hcond
      rcases List.mem_cons.mp hq with h1 | h1
      · subst h1; exact hcond
      · exact h q (List.mem_cons_of_mem _ h1)
    · rw [if_neg hk] at hq hcond
      have hlk : WS.lookupKey (hd :: WS.eraseAt tl uid ws) uid
          = WS.lookupKey (WS.eraseAt tl uid ws) uid := by
        simp [WS.lookupKey, List.find?_cons, hk]
      rw [hlk] at hcond
      rcases List.mem_cons.mp hq with h1 | h1
      · subst h1; exact h _ (List.mem_cons_self _ _)
      · exact ih (fun p hp => h p (List.mem_cons_of_mem _ hp)) hcond q h1

/-- `disconnect` preserves the all-lists-nonempty invariant. -/
theorem ws_inv_disconnect (st : WS.ConnState) (uid ws : Nat)
    (h : ∀ p ∈ st, p.2 ≠ []) : ∀ p ∈ WS.disconnect st uid ws, p.2 ≠ [] := by
  rw [WS.disconnect]
  by_cases hk : WS.hasKey st uid
  · rw [if_pos hk]
    by_cases hc : (WS.lookupKey (WS.eraseAt st uid ws) uid).getD [] = []
    · rw [if_pos hc]
      intro q hq
      obtain ⟨hq1, hq2⟩ := ws_mem_delKey (WS.eraseAt st uid ws) uid q hq
      exact h q (ws_mem_eraseAt_ne st uid ws q hq1 hq2)
    · rw [if_neg hc]
      exact ws_inv_eraseAt_keep st uid ws h hc
  · rw [if_neg hk]
    exact h

/-- The invariant holds along any operation sequence. -/
theorem ws_inv_foldl (ops : List WS.Op) :
    ∀ st, (∀ p ∈ st, p.2 ≠ []) →
      ∀ p ∈ ops.foldl WS.applyOp st, p.2 ≠ [] := by
  induction ops with
  | nil => intro st h; simpa using h
  | cons o rest ih =>
    intro st h
    rw [List.foldl_cons]
    apply ih
    cases o with
    | conn u w => exact ws_inv_connect st u w h
    | disc u w => exact ws_inv_disconnect st u w h

/-- C10 (confirmed): starting from the empty registry, no sequence of
`connect` / `disconnect` operations leaves an empty connection list behind a
user key: `connect` appends after ensuring the key, and `disconnect` deletes
the key as soon as its list becomes empty. -/
theorem c10_registry_lists_nonempty (ops : List WS.Op) :
    ∀ p ∈ WS.run ops, p.2 ≠ [] :=
  ws_inv_foldl ops [] (by intro p hp; simp at hp)

/-- Witness for C10 on a concrete operation sequence. -/
theorem c10_registry_lists_nonempty_witness :
    (((1, [11]) : Nat × List Nat)).2 ≠ [] :=
  c10_registry_lists_nonempty [.conn 1 10, .conn 1 11, .disc 1 10]
    (1, [11]) (by decide)

/-- What a successful gmail pipeline run reveals: the user existed, the new
expense carries the processed message id, and the only state change is the
appended expense row. -/
theorem gmail_success_state (st : DbState) (uid : Nat) (mid : List Char)
    (msg : GMsg) (env : Gmail.GEnv) (e : Expense) (st2 : DbState)
    (h : Gmail.process_email_message st uid mid msg env = (.success e, st2)) :
    st.users.contains uid = true ∧ e.email_id = mid ∧
      st2 = {st with expenses := st.expenses ++ [e]} := by
  by_cases hu : st.users.contains uid = true
  case neg =>
    have hcond : (!(st.users.contains uid)) = true := by
      rcases Bool.eq_false_or_eq_true (st.users.contains uid) with hb | hb
      · exact absurd hb hu
      · rw [hb]
        rfl
    rw [Gmail.process_email_message, if_pos hcond] at h
    rw [Prod.mk.injEq] at h
    exact absurd h.1 (by simp)
  case pos =>
    refine ⟨hu, ?_⟩
    have hcond : ¬((!(st.users.contains uid)) = true) := by rw [hu]; simp
    rw [Gmail.process_email_message, if_neg hcond] at h
    split at h
    · rw [Prod.mk.injEq] at h
      exact absurd h.1 (by simp)
    · split at h
      · rw [Prod.mk.injEq] at h
        exact absurd h.1 (by simp)
      · split at h
        · rw [Prod.mk.injEq] at h
          exact absurd h.1 (by simp)
        · rw [Prod.mk.injEq] at h
          exact absurd h.1 (by simp)
        · rw [Prod.mk.injEq] at h
          obtain ⟨h1, h2⟩ := h
          rw [Gmail.GResult.success.injEq] at h1
          subst h1
          exact ⟨rfl, h2.symm⟩

/-- C4 (confirmed): once a call has persisted an expense for a message id, a
second call with the same id — whatever message content or environment it
sees, so in particular without any extraction work — short-circuits at the
dedup check, returning Skipped(duplicate) and leaving the state unchanged. -/
theorem c4_process_message_idempotent (st : DbState) (uid : Nat)
    (mid : List Char) (msg : GMsg) (env : Gmail.GEnv) (e : Expense)
    (st2 : DbState)
    (h : Gmail.process_email_message st uid mid msg env = (.success e, st2)) :
    ∀ msg2 env2,
      Gmail.process_email_message st2 uid mid msg2 env2 = (.skippedDup, st2) := by
  obtain ⟨hu, hmid, hst⟩ := gmail_success_state st uid mid msg env e st2 h
  intro msg2 env2
  subst hst
  have hu2 : ¬((!(({st with expenses := st.expenses ++ [e]} : DbState).users.contains
      uid)) = true) := by
    show ¬((!(st.users.contains uid)) = true)
    rw [hu]
    simp
  have hdup : (({st with expenses := st.expenses ++ [e]} : DbState).expenses.any
      fun x => x.email_id = mid) = true := by
    show ((st.expenses ++ [e]).any fun x => x.email_id = mid) = true
    rw [List.any_append]
    simp [hmid]
  rw [Gmail.process_email_message, if_neg hu2, if_pos hdup]

/-- Witness for C4: a first call for user 1 persists the $45 Amazon expense;
the second call with the same message id is skipped as a duplicate. -/
theorem c4_process_message_idempotent_witness :
    Gmail.process_email_message ⟨[1, 2], [], [expAmazon 1 (("m1").toList)]⟩ 1
      (("m1").toList) msgAmazon gEnv0 =
      (.skippedDup, ⟨[1, 2], [], [expAmazon 1 (("m1").toList)]⟩) :=
  c4_process_message_idempotent stInit 1 (("m1").toList) msgAmazon gEnv0
    (expAmazon 1 (("m1").toList)) ⟨[1, 2], [], [expAmazon 1 (("m1").toList)]⟩
    (by decide) msgAmazon gEnv0

/-- C9 (confirmed): the dedup query filters on the provider message id alone,
with no user filter — after a run for one user persists an expense for a
message id, a run for any other (existing) user with the same id returns
Skipped(duplicate) and persists nothing. -/
theorem c9_dedup_ignores_user (st : DbState) (uid : Nat) (mid : List Char)
    (msg : GMsg) (env : Gmail.GEnv) (e : Expense) (st2 : DbState)
    (h : Gmail.process_email_message st uid mid msg env = (.success e, st2))
    (uid2 : Nat) (hne : uid2 ≠ uid) (hu2 : st.users.contains uid2 = true) :
    ∀ msg2 env2,
      Gmail.process_email_message st2 uid2 mid msg2 env2 = (.skippedDup, st2) := by
  obtain ⟨_, hmid, hst⟩ := gmail_success_state st uid mid msg env e st2 h
  intro msg2 env2
  subst hst
  have hu2b : ¬((!(({st with expenses := st.expenses ++ [e]} : DbState).users.contains
      uid2)) = true) := by
    show ¬((!(st.users.contains uid2)) = true)
    rw [hu2]
    simp
  have hdup : (({st with expenses := st.expenses ++ [e]} : DbState).expenses.any
      fun x => x.email_id = mid) = true := by
    show ((st.expenses ++ [e]).any fun x => x.email_id = mid) = true
    rw [List.any_append]
    simp [hmid]
  rw [Gmail.process_email_message, if_neg hu2b, if_pos hdup]

/-- Witness for C9: user 1 persists message "m9"; user 2's call with the same
message id is skipped as a duplicate, storing nothing for user 2. -/
theorem c9_dedup_ignores_user_witness :
    Gmail.process_email_message ⟨[1, 2], [], [expAmazon 1 (("m9").toList)]⟩ 2
      (("m9").toList) msgAmazon gEnv0 =
      (.skippedDup, ⟨[1, 2], [], [expAmazon 1 (("m9").toList)]⟩) :=
  c9_dedup_ignores_user stInit 1 (("m9").toList) msgAmazon gEnv0
    (expAmazon 1 (("m9").toList)) ⟨[1, 2], [], [expAmazon 1 (("m9").toList)]⟩
    (by decide) 2 (by decide) (by decide) msgAmazon gEnv0

/-- C1 (corrected, counterexample): with no transformer model the NLP
fallback path never calls the validator: spaCy amounts [999999] (outside the
plausible range, so the overall maximum is kept) with a merchant present
make `process_email` persist an expense of amount 999999 > 50000 —
a bounds-violating record crosses into persistence.  The gmail heuristic
path likewise persists without any bounds check: a "total charge $60000.50"
body yields a persisted amount of 60000.50 > 50000. -/
theorem c1_counterexample_fallback_persists_out_of_bounds :
    ((Sched.process_email stInit 1 (("c1m").toList) msgEmpty c1Env).2.expenses.map
      Expense.amount = [999999] ∧ ¬((999999 : ℚ) ≤ 50000)) ∧
    ((Gmail.process_email_message stInit 1 (("g1").toList) msgBig gEnv0).2.expenses.map
      Expense.amount = [mkRat 120001 2] ∧ ¬((mkRat 120001 2 : ℚ) ≤ 50000)) :=
  ⟨⟨by decide, by decide⟩, ⟨by decide, by decide⟩⟩

/-- C1 (amended): the ValidatedExpense bounds are guaranteed only for
records persisted from a transformer result accepted by
`validate_extraction`; on that path every expense newly persisted by
`process_email` has 0 < amount ≤ 50000 and a merchant of length ≥ 2.  The
fallback paths persist unvalidated candidates (see the counterexample). -/
theorem c1_amended_transformer_path_bounds (st : DbState) (uid : Nat)
    (mid : List Char) (msg : GMsg) (env : Sched.TEnv) (r : ML.MCand)
    (htr : env.tr = some r) (hv : ML.validate_extraction env.tr = true)
    (res : Sched.TResult) (st2 : DbState)
    (h : Sched.process_email st uid mid msg env = (res, st2)) :
    ∀ e, e ∈ st2.expenses → e ∉ st.expenses →
      0 < e.amount ∧ e.amount ≤ 50000 ∧
        ∃ m, e.merchant = some m ∧ 2 ≤ m.length := by
  intro e he hne
  have hval : ML.validate_extraction (some r) = true := by rw [← htr]; exact hv
  obtain ⟨⟨a, ha, ha1, ha2⟩, ⟨m, hm, hlen⟩⟩ := (validate_some_iff r).mp hval
  have hres : ∀ nlpr subj,
      ML.extract_expense_details env.tr nlpr subj env.spacyOrgs env.parseDate
        env.today = some r := by
    intro nlpr subj
    rw [ML.extract_expense_details, if_pos hv, htr]
  rw [Sched.process_email] at h
  split at h
  · rw [Prod.mk.injEq] at h
    rw [← h.2] at he
    exact absurd he hne
  · split at h
    · rw [Prod.mk.injEq] at h
      rw [← h.2] at he
      exact absurd he hne
    · split at h
      next hE =>
        rw [hres] at hE
        exact absurd hE (by simp)
      next r2 hE =>
        rw [hres, Option.some.injEq] at hE
        subst hE
        have hcond : (r.amount.isSome && r.merchant.isSome) = true := by
          simp [ha, hm]
        rw [if_pos hcond] at h
        rw [Prod.mk.injEq] at h
        rw [← h.2] at he
        have he2 : e ∈ st.expenses ∨ e ∈
            [({ date := r.date.getD ((env.parseDate (headerLower msg.headers
                  (("date").toList))).getD env.today),
                amount := r.amount.getD 0, merchant := r.merchant.getD none,
                description := r.description.getD [], user_id := uid,
                email_id := mid,
                category_id := (Sched.categorize_expense st.categories uid
                  (env.predictCategory (r.merchant.getD none)
                    (r.description.getD []))).1 } : Expense)] :=
          List.mem_append.mp he
        rcases he2 with h3 | h3
        · exact absurd h3 hne
        · rw [List.mem_singleton.mp h3]
          refine ⟨?_, ?_, ?_⟩
          · show 0 < r.amount.getD 0
            rw [ha]
            simpa using ha1
          · show r.amount.getD 0 ≤ 50000
            rw [ha]
            simpa using ha2
          · refine ⟨m, ?_, hlen⟩
            show r.merchant.getD none = some m
            rw [hm]
            rfl

/-- Witness for the amended C1: a validated $45 transformer result is
persisted with its bounds intact. -/
theorem c1_amended_transformer_path_bounds_witness :
    0 < expTrValid.amount ∧ expTrValid.amount ≤ 50000 ∧
      ∃ m, expTrValid.merchant = some m ∧ 2 ≤ m.length :=
  c1_amended_transformer_path_bounds stInit 1 (("c1w").toList) msgEmpty c1EnvW
    trValid rfl (by decide) (.created expTrValid) ⟨[1, 2], [], [expTrValid]⟩
    (by decide) expTrValid (by decide) (by decide)

/-- Every fallback result carries the date chosen by the date step. -/
theorem fallback_extract_date (nlp : ML.NlpResults) (subject : List Char)
    (orgs : List Char → List (List Char)) (parse : List Char → Option Date)
    (today : Date) (r : ML.MCand)
    (hfb : ML.fallback_extract nlp subject orgs parse today = some r) :
    r.date = some (ML.fallback_date nlp.dates parse today) := by
  rw [ML.fallback_extract] at hfb
  cases hA : ML.fallback_amount nlp.amounts with
  | none =>
    simp only [hA] at hfb
    exact absurd hfb (by simp)
  | some a =>
    simp only [hA, Option.some.injEq] at hfb
    rw [← hfb]

/-- C8 (amended): date extraction never fails the pipeline — the fallback
parser always supplies a date — but on a parse failure of the first date
entity, or when no date entity exists, it substitutes the current processing
date unconditionally.  The message's own sent date is never substituted: the
`results.get('date', date)` default in `process_email` is dead, because the
parser's results always carry a date. -/
theorem c8_amended_today_substituted :
    (∀ nlp subject orgs parse today r,
      ML.fallback_extract nlp subject orgs parse today = some r →
      (r.date).isSome = true) ∧
    (∀ nlp subject orgs parse today r,
      ML.fallback_extract nlp subject orgs parse today = some r →
      (nlp.dates = [] ∨ ∃ d ds, nlp.dates = d :: ds ∧ parse d = none) →
      r.date = some today) := by
  constructor
  · intro nlp subject orgs parse today r hfb
    rw [fallback_extract_date nlp subject orgs parse today r hfb]
    rfl
  · intro nlp subject orgs parse today r hfb hdate
    rw [fallback_extract_date nlp subject orgs parse today r hfb]
    rcases hdate with hd | ⟨d, ds, hd, hp⟩
    · rw [hd]
      rfl
    · rw [hd]
      show some ((parse d).getD today) = some today
      rw [hp]
      rfl

/-- Witness for the amended C8: with no date entity found, the fallback
result carries the processing date 2025-05-05. -/
theorem c8_amended_today_substituted_witness :
    ((⟨some 45, some (some (("Amazon").toList)), some ⟨2025, 5, 5⟩,
        some []⟩ : ML.MCand)).date = some ⟨2025, 5, 5⟩ :=
  c8_amended_today_substituted.2 ⟨[45], [("Amazon").toList], [], []⟩ []
    (fun _ => []) (fun _ => none) ⟨2025, 5, 5⟩ _ (by decide) (Or.inl rfl)

/-- C8 (corrected, counterexample): the message's Date header is present and
parseable (sent date 2024-01-01), spaCy finds no date entity, and yet the
persisted expense's date is the processing date 2025-05-05 — the sent date
is not substituted, contrary to the claim. -/
theorem c8_counterexample_sent_date_ignored :
    c8Env.parseDate (("Mon, 01 Jan 2024").toList) = some ⟨2024, 1, 1⟩ ∧
    headerLower msgDated.headers (("date").toList) = ("Mon, 01 Jan 2024").toList ∧
    (c8Env.nlpInfo []).dates = [] ∧
    (Sched.process_email stInit 1 (("c8m").toList) msgDated c8Env).2.expenses.map
      Expense.date = [⟨2025, 5, 5⟩] ∧
    c8Env.today = ⟨2025, 5, 5⟩ ∧ ((⟨2025, 5, 5⟩ : Date) ≠ ⟨2024, 1, 1⟩) :=
  ⟨by decide, by decide, by decide, by decide, by decide, by decide⟩

end ExApp




